import Mathlib

/-!
Shallow embedding of the contract UrbanFarmTwinFHE
(src/contracts/UrbanFarmTwinFHE.sol) and proofs about it.

Modelling conventions:
* `euint32` ciphertext handles are modelled semantically as `Option Nat`:
  `none` is the uninitialized handle (Solidity's zero handle, for which
  `FHE.isInitialized` is false), `some v` is an initialized ciphertext whose
  underlying plaintext is `v` (kept below 2^32 by the operations).
  `FHE.toBytes32` maps the uninitialized handle to the zero word and
  initialized handles to a nonzero word.
* Solidity mappings are total functions with the type's default value for
  absent keys; `mapSet` is a point update.
* External facts the chain supplies — `keccak256`, signature verification,
  `block.timestamp` — are fields of an `Env` parameter; the fresh request id
  returned by `FHE.requestDecryption` is an explicit argument of the
  request functions.
* A Solidity revert (failed `require`, failed `FHE.checkSignatures`, failed
  `abi.decode`, checked-arithmetic panic) is `Except.error`; an error result
  carries no state and no events, so a revert changes nothing by
  construction.
* `cleartexts` byte payloads are modelled at their decoded shape by the
  inductive `Cleartexts`; `abi.decode` to the wrong shape fails.
* Emitted events and the outgoing `FHE.requestDecryption` call are recorded
  in an `Action` list, in program order.
-/

namespace UrbanFarmTwinFHE

/-- Semantic model of an `euint32` ciphertext handle. -/
def Euint32 := Option Nat
deriving DecidableEq, Repr

/-- The uninitialized handle (default value of an `euint32` storage slot). -/
def Euint32.uninit : Euint32 := none

namespace FHE

/-- Model of `FHE.asEuint32`: a trivially encrypted (initialized) value. -/
def asEuint32 (v : Nat) : Euint32 := some (v % 4294967296)

/-- Model of `FHE.isInitialized`: true exactly for initialized handles. -/
def isInitialized (h : Euint32) : Bool := (h : Option Nat).isSome

/-- Model of `FHE.add`: homomorphic addition modulo 2^32. -/
def add (a b : Euint32) : Euint32 :=
  some (((a : Option Nat).getD 0 + (b : Option Nat).getD 0) % 4294967296)

/-- Model of `FHE.toBytes32`: the uninitialized handle is the zero word;
initialized handles are nonzero words. -/
def toBytes32 (h : Euint32) : Nat :=
  match (h : Option Nat) with
  | none => 0
  | some v => v + 1

end FHE

/-- Point update of a modelled Solidity mapping. -/
def mapSet {κ : Type} {α : Type} [DecidableEq κ] (m : κ → α) (k : κ) (v : α) : κ → α :=
  fun x => if x = k then v else m x

/-- struct EncryptedReading. -/
structure EncryptedReading where
  id : Nat
  encryptedTimestamp : Euint32
  encryptedTemperature : Euint32
  encryptedHumidity : Euint32
  encryptedCO2 : Euint32
  encryptedLight : Euint32
  encryptedSoilMoisture : Euint32
deriving DecidableEq, Repr

/-- Default value of an `EncryptedReading` storage slot (absent mapping entry). -/
def defaultReading : EncryptedReading :=
  ⟨0, Euint32.uninit, Euint32.uninit, Euint32.uninit, Euint32.uninit, Euint32.uninit, Euint32.uninit⟩

/-- struct EncryptedTwin. -/
structure EncryptedTwin where
  id : Nat
  encryptedStateHash : Euint32
  encryptedHealthScore : Euint32
  lastUpdated : Nat
deriving DecidableEq, Repr

/-- Default value of an `EncryptedTwin` storage slot. -/
def defaultEncryptedTwin : EncryptedTwin :=
  ⟨0, Euint32.uninit, Euint32.uninit, 0⟩

/-- struct DecryptedTwin. -/
structure DecryptedTwin where
  stateSummary : String
  healthScore : Nat
  revealed : Bool
deriving DecidableEq, Repr

/-- Default value of a `DecryptedTwin` storage slot. -/
def defaultDecryptedTwin : DecryptedTwin := ⟨"", 0, false⟩

/-- struct EncryptedRecommendation. -/
structure EncryptedRecommendation where
  id : Nat
  encryptedWateringSchedule : Euint32
  encryptedNutrientPlan : Euint32
  encryptedLightAdjust : Euint32
  generatedAt : Nat
deriving DecidableEq, Repr

/-- Default value of an `EncryptedRecommendation` storage slot. -/
def defaultEncryptedRecommendation : EncryptedRecommendation :=
  ⟨0, Euint32.uninit, Euint32.uninit, Euint32.uninit, 0⟩

/-- struct DecryptedRecommendation. -/
structure DecryptedRecommendation where
  watering : String
  nutrients : String
  lightAdjust : String
  revealed : Bool
deriving DecidableEq, Repr

/-- Default value of a `DecryptedRecommendation` storage slot. -/
def defaultDecryptedRecommendation : DecryptedRecommendation := ⟨"", "", "", false⟩

/-- Decoded shape of a `cleartexts` byte payload. -/
inductive Cleartexts where
  | strs (parts : List String)
  | num (value : Nat)
deriving DecidableEq, Repr

/-- Model of `abi.decode(cleartexts, (string[]))`: fails on any other shape. -/
def decodeStringArray : Cleartexts → Option (List String)
  | Cleartexts.strs parts => some parts
  | Cleartexts.num _ => none

/-- Model of `abi.decode(cleartexts, (uint32))`: fails on any other shape or
an out-of-range word. -/
def decodeUint32 : Cleartexts → Option Nat
  | Cleartexts.strs _ => none
  | Cleartexts.num v => if v < 4294967296 then some v else none

/-- Chain-supplied externals: `keccak256` over packed string bytes, the
attestation verifier behind `FHE.checkSignatures`, and `block.timestamp`. -/
structure Env where
  keccak : String → Nat
  sigOk : Nat → Cleartexts → Nat → Bool
  blockTimestamp : Nat

/-- The callback selector passed to `FHE.requestDecryption`. -/
inductive Selector where
  | twinUpdateSel
  | recommendationSel
  | aggregateSel
deriving DecidableEq, Repr

/-- Observable effects of a call: emitted events and outgoing decryption
requests, in program order. -/
inductive Action where
  | readingSubmitted (id timestamp : Nat)
  | twinUpdateRequested (twinId requestId : Nat)
  | twinDecrypted (twinId : Nat)
  | recommendationRequested (recId requestId : Nat)
  | recommendationDecrypted (recId : Nat)
  | plainAggregateResult (key : String) (value : Nat)
  | decryptionRequested (ciphertexts : List Nat) (sel : Selector)
deriving DecidableEq, Repr

/-- Revert reasons (failed requires, library failures, checked-arithmetic panic). -/
inductive Err where
  | noReadingsProvided
  | invalidRequestId
  | invalidRequest
  | metricNotFound
  | metricKeyNotFound
  | signatureCheckFailed
  | abiDecodeFailed
  | arithmeticOverflow
deriving DecidableEq, Repr

/-- Contract storage of UrbanFarmTwinFHE. -/
structure State where
  readingCount : Nat
  twinCount : Nat
  recommendationCount : Nat
  readings : Nat → EncryptedReading
  encryptedTwins : Nat → EncryptedTwin
  decryptedTwins : Nat → DecryptedTwin
  encryptedRecommendations : Nat → EncryptedRecommendation
  decryptedRecommendations : Nat → DecryptedRecommendation
  encryptedMetricAggregates : String → Euint32
  metricKeys : List String
  requestToEntityId : Nat → Nat
  requestToTag : Nat → Nat

/-- Storage right after deployment: every slot holds its default value. -/
def initState : State where
  readingCount := 0
  twinCount := 0
  recommendationCount := 0
  readings := fun _ => defaultReading
  encryptedTwins := fun _ => defaultEncryptedTwin
  decryptedTwins := fun _ => defaultDecryptedTwin
  encryptedRecommendations := fun _ => defaultEncryptedRecommendation
  decryptedRecommendations := fun _ => defaultDecryptedRecommendation
  encryptedMetricAggregates := fun _ => Euint32.uninit
  metricKeys := []
  requestToEntityId := fun _ => 0
  requestToTag := fun _ => 0

/-- parseUint32's loop over the bytes of the string: digits accumulate into
the result, the first non-digit breaks out, and Solidity 0.8 checked
arithmetic panics (reverts) when the uint32 accumulator would overflow. -/
def parseUint32Loop : List Nat → Nat → Option Nat
  | [], result => some result
  | c :: rest, result =>
    if 48 ≤ c ∧ c ≤ 57 then
      if result * 10 + (c - 48) < 4294967296 then
        parseUint32Loop rest (result * 10 + (c - 48))
      else none
    else some result

/-- function parseUint32. Digit characters are single-byte in UTF-8 and the
loop stops at the first non-digit byte, so iterating code points agrees with
iterating `bytes(s)`. `none` models the checked-arithmetic revert. -/
def parseUint32 (s : String) : Option Nat :=
  parseUint32Loop (s.data.map Char.toNat) 0

/-- function findMetricKeyByHash: linear scan of `metricKeys` for a key whose
keccak hash equals `hash`; `none` models the "Metric key not found" revert. -/
def findMetricKeyByHash (env : Env) (keys : List String) (hash : Nat) : Option String :=
  keys.find? (fun k => env.keccak k == hash)

/-- function submitEncryptedReading. -/
def submitEncryptedReading (env : Env) (s : State)
    (encryptedTimestamp encryptedTemperature encryptedHumidity
     encryptedCO2 encryptedLight encryptedSoilMoisture : Euint32) :
    State × List Action :=
  let rid := s.readingCount + 1
  ({ s with
      readingCount := rid
      readings := mapSet s.readings rid
        ⟨rid, encryptedTimestamp, encryptedTemperature, encryptedHumidity,
          encryptedCO2, encryptedLight, encryptedSoilMoisture⟩ },
    [Action.readingSubmitted rid env.blockTimestamp])

/-- The loop body of requestTwinUpdate: the six ciphertext words packaged at
positions base+0 .. base+5 for one reading id. -/
def packReadingCiphertexts (s : State) (rid : Nat) : List Nat :=
  let r := s.readings rid
  [FHE.toBytes32 r.encryptedTimestamp,
   FHE.toBytes32 r.encryptedTemperature,
   FHE.toBytes32 r.encryptedHumidity,
   FHE.toBytes32 r.encryptedCO2,
   FHE.toBytes32 r.encryptedLight,
   FHE.toBytes32 r.encryptedSoilMoisture]

/-- function requestTwinUpdate. `reqId` is the fresh id returned by
`FHE.requestDecryption` for the packaged ciphertexts. -/
def requestTwinUpdate (env : Env) (s : State) (twinId : Nat)
    (readingIds : List Nat) (reqId : Nat) : Except Err (State × List Action) :=
  let n := readingIds.length
  if n > 0 then
    let ciphertexts : List Nat :=
      (readingIds.map (packReadingCiphertexts s)).flatten
    Except.ok
      ({ s with
          requestToEntityId := mapSet s.requestToEntityId reqId twinId
          requestToTag := mapSet s.requestToTag reqId (env.keccak "twin_update") },
        [Action.decryptionRequested ciphertexts Selector.twinUpdateSel,
         Action.twinUpdateRequested twinId reqId])
  else
    Except.error Err.noReadingsProvided

/-- The health-score expression of decryptTwinUpdate:
parts.length > 1 ? parseUint32(parts[1]) : 0, with `none` propagating the
checked-arithmetic revert of parseUint32. -/
def parseHealth (parts : List String) : Option Nat :=
  if parts.length > 1 then parseUint32 (parts.getD 1 "") else some 0

/-- function decryptTwinUpdate. -/
def decryptTwinUpdate (env : Env) (s : State) (requestId : Nat)
    (cleartexts : Cleartexts) (pf : Nat) : Except Err (State × List Action) :=
  let twinId := s.requestToEntityId requestId
  if twinId = 0 then
    Except.error Err.invalidRequestId
  else if env.sigOk requestId cleartexts pf then
    match decodeStringArray cleartexts with
    | none => Except.error Err.abiDecodeFailed
    | some parts =>
      match parseHealth parts with
      | none => Except.error Err.arithmeticOverflow
      | some healthScore =>
        let s1 := { s with
          decryptedTwins := mapSet s.decryptedTwins twinId
            ⟨parts.getD 0 "", healthScore, true⟩ }
        let s2 :=
          if (s1.encryptedTwins twinId).id = 0 then
            { s1 with
                twinCount := s1.twinCount + 1
                encryptedTwins := mapSet s1.encryptedTwins twinId
                  ⟨twinId, FHE.asEuint32 0, FHE.asEuint32 0, env.blockTimestamp⟩ }
          else
            { s1 with
                encryptedTwins := mapSet s1.encryptedTwins twinId
                  { s1.encryptedTwins twinId with lastUpdated := env.blockTimestamp } }
        Except.ok (s2, [Action.twinDecrypted twinId])
  else
    Except.error Err.signatureCheckFailed

/-- function submitEncryptedRecommendationRequest. `reqId` is the fresh id
returned by `FHE.requestDecryption`. -/
def submitEncryptedRecommendationRequest (env : Env) (s : State)
    (encryptedWateringSchedule encryptedNutrientPlan encryptedLightAdjust : Euint32)
    (reqId : Nat) : State × List Action :=
  let rid := s.recommendationCount + 1
  let ciphertexts : List Nat :=
    [FHE.toBytes32 encryptedWateringSchedule,
     FHE.toBytes32 encryptedNutrientPlan,
     FHE.toBytes32 encryptedLightAdjust]
  ({ s with
      recommendationCount := rid
      encryptedRecommendations := mapSet s.encryptedRecommendations rid
        ⟨rid, encryptedWateringSchedule, encryptedNutrientPlan,
          encryptedLightAdjust, env.blockTimestamp⟩
      requestToEntityId := mapSet s.requestToEntityId reqId rid
      requestToTag := mapSet s.requestToTag reqId (env.keccak "recommendation") },
    [Action.decryptionRequested ciphertexts Selector.recommendationSel,
     Action.recommendationRequested rid reqId])

/-- function decryptRecommendation. -/
def decryptRecommendation (env : Env) (s : State) (requestId : Nat)
    (cleartexts : Cleartexts) (pf : Nat) : Except Err (State × List Action) :=
  let recId := s.requestToEntityId requestId
  if recId = 0 then
    Except.error Err.invalidRequest
  else if env.sigOk requestId cleartexts pf then
    match decodeStringArray cleartexts with
    | none => Except.error Err.abiDecodeFailed
    | some items =>
      Except.ok
        ({ s with
            decryptedRecommendations := mapSet s.decryptedRecommendations recId
              ⟨items.getD 0 "", items.getD 1 "", items.getD 2 "", true⟩ },
          [Action.recommendationDecrypted recId])
  else
    Except.error Err.signatureCheckFailed

/-- function addEncryptedAggregate. -/
def addEncryptedAggregate (s : State) (key : String) (encryptedDelta : Euint32) : State :=
  let s1 :=
    if FHE.isInitialized (s.encryptedMetricAggregates key) then s
    else
      { s with
          encryptedMetricAggregates :=
            mapSet s.encryptedMetricAggregates key (FHE.asEuint32 0)
          metricKeys := s.metricKeys ++ [key] }
  { s1 with
      encryptedMetricAggregates :=
        mapSet s1.encryptedMetricAggregates key
          (FHE.add (s1.encryptedMetricAggregates key) encryptedDelta) }

/-- function requestAggregateDecryption. `reqId` is the fresh id returned by
`FHE.requestDecryption`. -/
def requestAggregateDecryption (env : Env) (s : State) (key : String)
    (reqId : Nat) : Except Err (State × List Action) :=
  let agg := s.encryptedMetricAggregates key
  if FHE.isInitialized agg then
    Except.ok
      ({ s with
          requestToEntityId := mapSet s.requestToEntityId reqId (env.keccak key)
          requestToTag := mapSet s.requestToTag reqId (env.keccak "aggregate") },
        [Action.decryptionRequested [FHE.toBytes32 agg] Selector.aggregateSel])
  else
    Except.error Err.metricNotFound

/-- function emitPlainAggregateResult: emits the event and nothing else. -/
def emitPlainAggregateResult (key : String) (value : Nat) : List Action :=
  [Action.plainAggregateResult key value]

/-- function decryptAggregate. Note the source order: `FHE.checkSignatures`
runs first, then the correlator lookup feeds `findMetricKeyByHash`. -/
def decryptAggregate (env : Env) (s : State) (requestId : Nat)
    (cleartexts : Cleartexts) (pf : Nat) : Except Err (State × List Action) :=
  if env.sigOk requestId cleartexts pf then
    let keyHash := s.requestToEntityId requestId
    match findMetricKeyByHash env s.metricKeys keyHash with
    | none => Except.error Err.metricKeyNotFound
    | some key =>
      match decodeUint32 cleartexts with
      | none => Except.error Err.abiDecodeFailed
      | some value => Except.ok (s, emitPlainAggregateResult key value)
  else
    Except.error Err.signatureCheckFailed

/-- The correlator-resolution pattern the callbacks use: read both mappings
for a request id (spec name: resolvePendingRequest). -/
def resolvePendingRequest (s : State) (requestId : Nat) : Nat × Nat :=
  (s.requestToEntityId requestId, s.requestToTag requestId)

/-- Apply a sequence of addEncryptedAggregate calls in order. -/
def applyAddCalls (s : State) (calls : List (String × Euint32)) : State :=
  calls.foldl (fun st c => addEncryptedAggregate st c.1 c.2) s

/-! Concrete fixtures used by witnesses and counterexamples. -/

/-- An environment whose attestation verifier accepts everything; keccak is
modelled by an arbitrary nonzero-valued function. -/
def envAccept : Env := ⟨fun st => st.length + 1, fun _ _ _ => true, 1000⟩

/-- An environment whose attestation verifier rejects everything. -/
def envReject : Env := ⟨fun st => st.length + 1, fun _ _ _ => false, 1000⟩

/-- A state with one registered twin-update correlator entry: request id 5
maps to twin 7. -/
def stateReg : State :=
  { initState with requestToEntityId := mapSet initState.requestToEntityId 5 7 }

/-- A state with one initialized aggregate under key "water" and a registered
aggregate-decryption correlator entry: request id 5 maps to the key hash
envAccept.keccak "water" = 6. -/
def stateAgg : State :=
  { initState with
      encryptedMetricAggregates :=
        mapSet initState.encryptedMetricAggregates "water" (FHE.asEuint32 3)
      metricKeys := ["water"]
      requestToEntityId := mapSet initState.requestToEntityId 5 6 }

/-- The state produced by a successful twin-update callback on stateReg for
request id 5 with cleartexts ["a"]. -/
def stateAfterTwin : State :=
  { stateReg with
      twinCount := stateReg.twinCount + 1
      decryptedTwins := mapSet stateReg.decryptedTwins 7 ⟨"a", 0, true⟩
      encryptedTwins := mapSet stateReg.encryptedTwins 7
        ⟨7, FHE.asEuint32 0, FHE.asEuint32 0, envAccept.blockTimestamp⟩ }

/-- Invariant tying the aggregate key list to accumulator initialization: the
key list has no duplicates and holds exactly the initialized keys. -/
def AggInv (s : State) : Prop :=
  s.metricKeys.Nodup ∧
  ∀ k, k ∈ s.metricKeys ↔ FHE.isInitialized (s.encryptedMetricAggregates k) = true

/-! Helper lemmas. -/

lemma mapSet_same {κ α : Type} [DecidableEq κ] (m : κ → α) (k : κ) (v : α) :
    mapSet m k v k = v := by
  simp [mapSet]

lemma mapSet_other {κ α : Type} [DecidableEq κ] (m : κ → α) (k : κ) (v : α)
    (x : κ) (h : x ≠ k) : mapSet m k v x = m x := by
  simp [mapSet, h]

/-- Successful run of decryptTwinUpdate: under the four guard conditions the
callback returns a state that writes only decryptedTwins, twinCount and
encryptedTwins, and emits TwinDecrypted. -/
lemma decryptTwinUpdate_run (env : Env) (s : State) (rid : Nat)
    (ct : Cleartexts) (pf : Nat) (parts : List String) (hsc : Nat)
    (h0 : s.requestToEntityId rid ≠ 0)
    (hsig : env.sigOk rid ct pf = true)
    (hdec : decodeStringArray ct = some parts)
    (hpar : parseHealth parts = some hsc) :
    ∃ s1, decryptTwinUpdate env s rid ct pf =
        Except.ok (s1, [Action.twinDecrypted (s.requestToEntityId rid)]) ∧
      s1.decryptedTwins (s.requestToEntityId rid) = ⟨parts.getD 0 "", hsc, true⟩ ∧
      s1.requestToEntityId = s.requestToEntityId ∧
      s1.requestToTag = s.requestToTag := by
  by_cases htw : (s.encryptedTwins (s.requestToEntityId rid)).id = 0
  · refine ⟨{ s with
        twinCount := s.twinCount + 1
        encryptedTwins := mapSet s.encryptedTwins (s.requestToEntityId rid)
          ⟨s.requestToEntityId rid, FHE.asEuint32 0, FHE.asEuint32 0, env.blockTimestamp⟩
        decryptedTwins := mapSet s.decryptedTwins (s.requestToEntityId rid)
          ⟨parts.getD 0 "", hsc, true⟩ }, ?_, by simp [mapSet_same], rfl, rfl⟩
    simp [decryptTwinUpdate, h0, hsig, hdec, hpar, htw]
  · refine ⟨{ s with
        encryptedTwins := mapSet s.encryptedTwins (s.requestToEntityId rid)
          { s.encryptedTwins (s.requestToEntityId rid) with
              lastUpdated := env.blockTimestamp }
        decryptedTwins := mapSet s.decryptedTwins (s.requestToEntityId rid)
          ⟨parts.getD 0 "", hsc, true⟩ }, ?_, by simp [mapSet_same], rfl, rfl⟩
    simp [decryptTwinUpdate, h0, hsig, hdec, hpar, htw]

/-- Successful run of decryptRecommendation: under the three guard conditions
the callback writes only decryptedRecommendations and emits
RecommendationDecrypted. -/
lemma decryptRecommendation_run (env : Env) (s : State) (rid : Nat)
    (ct : Cleartexts) (pf : Nat) (items : List String)
    (h0 : s.requestToEntityId rid ≠ 0)
    (hsig : env.sigOk rid ct pf = true)
    (hdec : decodeStringArray ct = some items) :
    decryptRecommendation env s rid ct pf =
      Except.ok
        ({ s with
            decryptedRecommendations := mapSet s.decryptedRecommendations
              (s.requestToEntityId rid)
              ⟨items.getD 0 "", items.getD 1 "", items.getD 2 "", true⟩ },
          [Action.recommendationDecrypted (s.requestToEntityId rid)]) := by
  simp [decryptRecommendation, h0, hsig, hdec]

/-- C7: for every twinId, calling requestTwinUpdate with an empty readingIds
array reverts ("No readings provided") synchronously; an error result carries
no state and no actions, so no correlator entry is written, no decryption
request is issued and no event is emitted. -/
theorem emptyReadingIdsRejected (env : Env) (s : State) (twinId reqId : Nat) :
    requestTwinUpdate env s twinId [] reqId = Except.error Err.noReadingsProvided := by
  rfl

/-- C1: a (requestId, entityId, tag) triple registered by any of the three
request functions is returned unchanged by the correlator resolution the
callbacks perform: requestToEntityId holds the entity id and requestToTag the
tag that were registered. -/
theorem requestThenResolveRoundTrip (env : Env) (s : State) (reqId : Nat) :
    (∀ twinId readingIds s1 acts,
      requestTwinUpdate env s twinId readingIds reqId = Except.ok (s1, acts) →
      resolvePendingRequest s1 reqId = (twinId, env.keccak "twin_update")) ∧
    (∀ w n l s1 acts,
      submitEncryptedRecommendationRequest env s w n l reqId = (s1, acts) →
      resolvePendingRequest s1 reqId =
        (s.recommendationCount + 1, env.keccak "recommendation")) ∧
    (∀ key s1 acts,
      requestAggregateDecryption env s key reqId = Except.ok (s1, acts) →
      resolvePendingRequest s1 reqId = (env.keccak key, env.keccak "aggregate")) := by
  refine ⟨?_, ?_, ?_⟩
  · intro twinId readingIds s1 acts h
    cases readingIds with
    | nil => simp [requestTwinUpdate] at h
    | cons a as =>
      simp only [requestTwinUpdate, List.length_cons, gt_iff_lt, Nat.succ_pos, if_true,
        Except.ok.injEq, Prod.mk.injEq] at h
      obtain ⟨hs1, -⟩ := h
      subst hs1
      simp [resolvePendingRequest, mapSet]
  · intro w n l s1 acts h
    simp only [submitEncryptedRecommendationRequest, Prod.mk.injEq] at h
    obtain ⟨hs1, -⟩ := h
    subst hs1
    simp [resolvePendingRequest, mapSet]
  · intro key s1 acts h
    cases hinit : FHE.isInitialized (s.encryptedMetricAggregates key) with
    | false => simp [requestAggregateDecryption, hinit] at h
    | true =>
      simp only [requestAggregateDecryption, hinit, if_true, Except.ok.injEq,
        Prod.mk.injEq] at h
      obtain ⟨hs1, -⟩ := h
      subst hs1
      simp [resolvePendingRequest, mapSet]

/-- Witness for C1: a concrete registration through requestTwinUpdate
resolves to the registered pair. -/
theorem requestThenResolveRoundTripHolds :
    requestTwinUpdate envAccept initState 7 [1] 5 =
      Except.ok
        ({ initState with
            requestToEntityId := mapSet initState.requestToEntityId 5 7
            requestToTag := mapSet initState.requestToTag 5 (envAccept.keccak "twin_update") },
          [Action.decryptionRequested [0, 0, 0, 0, 0, 0] Selector.twinUpdateSel,
           Action.twinUpdateRequested 7 5]) ∧
    resolvePendingRequest
        { initState with
            requestToEntityId := mapSet initState.requestToEntityId 5 7
            requestToTag := mapSet initState.requestToTag 5 (envAccept.keccak "twin_update") } 5 =
      (7, envAccept.keccak "twin_update") :=
  ⟨rfl, (requestThenResolveRoundTrip envAccept initState 5).1 7 [1] _ _ rfl⟩

/-- C9: whenever decryptAggregate succeeds, the resulting storage is exactly
the pre-state (no mapping or state variable is written) and its only effect is
the single PlainAggregateResult event carrying the plaintext value. -/
theorem decryptAggregateStorageUnchanged (env : Env) (s : State) (rid : Nat)
    (ct : Cleartexts) (pf : Nat) (s1 : State) (acts : List Action)
    (h : decryptAggregate env s rid ct pf = Except.ok (s1, acts)) :
    s1 = s ∧ ∃ key value, acts = [Action.plainAggregateResult key value] := by
  cases hsig : env.sigOk rid ct pf with
  | false => simp [decryptAggregate, hsig] at h
  | true =>
    cases hfind : findMetricKeyByHash env s.metricKeys (s.requestToEntityId rid) with
    | none => simp [decryptAggregate, hsig, hfind] at h
    | some key =>
      cases hdec : decodeUint32 ct with
      | none => simp [decryptAggregate, hsig, hfind, hdec] at h
      | some value =>
        simp only [decryptAggregate, hsig, hfind, hdec, emitPlainAggregateResult,
          if_true, Except.ok.injEq, Prod.mk.injEq] at h
        exact ⟨h.1.symm, key, value, h.2.symm⟩

/-- C3 counterexample: decryptAggregate does NOT resolve the correlator
before verifying the proof. At a concrete input whose request id has no
correlator entry and whose proof fails verification, the callback fails with
the signature-verification failure, not the absent-correlator failure, so
proof verification ran first. -/
theorem aggregateOrderCounterexample :
    initState.requestToEntityId 1 = 0 ∧
    decryptAggregate envReject initState 1 (Cleartexts.num 3) 0 =
      Except.error Err.signatureCheckFailed ∧
    decryptAggregate envReject initState 1 (Cleartexts.num 3) 0 ≠
      Except.error Err.metricKeyNotFound := by
  refine ⟨rfl, rfl, ?_⟩
  have h : decryptAggregate envReject initState 1 (Cleartexts.num 3) 0 =
      Except.error Err.signatureCheckFailed := rfl
  rw [h]
  simp

/-- C3 amended: decryptTwinUpdate and decryptRecommendation resolve the
correlator first (absent entry fails regardless of the proof) and then verify
the proof before decoding or writing; decryptAggregate instead verifies the
proof FIRST and only then resolves the correlator; in all three callbacks a
success implies the proof was verified, so no callback acts on unverified
cleartexts. -/
theorem callbackProcessingOrder (env : Env) (s : State) (rid : Nat)
    (ct : Cleartexts) (pf : Nat) :
    (s.requestToEntityId rid = 0 →
      decryptTwinUpdate env s rid ct pf = Except.error Err.invalidRequestId ∧
      decryptRecommendation env s rid ct pf = Except.error Err.invalidRequest) ∧
    (s.requestToEntityId rid ≠ 0 → env.sigOk rid ct pf = false →
      decryptTwinUpdate env s rid ct pf = Except.error Err.signatureCheckFailed ∧
      decryptRecommendation env s rid ct pf = Except.error Err.signatureCheckFailed) ∧
    (env.sigOk rid ct pf = false →
      decryptAggregate env s rid ct pf = Except.error Err.signatureCheckFailed) ∧
    (∀ out, decryptTwinUpdate env s rid ct pf = Except.ok out ∨
            decryptRecommendation env s rid ct pf = Except.ok out ∨
            decryptAggregate env s rid ct pf = Except.ok out →
      env.sigOk rid ct pf = true) := by
  refine ⟨?_, ?_, ?_, ?_⟩
  · intro h0
    exact ⟨by simp [decryptTwinUpdate, h0], by simp [decryptRecommendation, h0]⟩
  · intro hne hsig
    exact ⟨by simp [decryptTwinUpdate, hne, hsig], by simp [decryptRecommendation, hne, hsig]⟩
  · intro hsig
    simp [decryptAggregate, hsig]
  · intro out hout
    cases hsig : env.sigOk rid ct pf with
    | true => rfl
    | false =>
      exfalso
      by_cases h0 : s.requestToEntityId rid = 0
      · rcases hout with h | h | h
        · simp [decryptTwinUpdate, h0] at h
        · simp [decryptRecommendation, h0] at h
        · simp [decryptAggregate, hsig] at h
      · rcases hout with h | h | h
        · simp [decryptTwinUpdate, h0, hsig] at h
        · simp [decryptRecommendation, h0, hsig] at h
        · simp [decryptAggregate, hsig] at h

/-- Witness for the amended C3: each conjunct applied at concrete inputs. -/
theorem callbackProcessingOrderHolds :
    decryptTwinUpdate envReject initState 1 (Cleartexts.num 0) 0 =
      Except.error Err.invalidRequestId ∧
    decryptRecommendation envReject initState 1 (Cleartexts.num 0) 0 =
      Except.error Err.invalidRequest ∧
    decryptTwinUpdate envReject stateReg 5 (Cleartexts.num 0) 0 =
      Except.error Err.signatureCheckFailed ∧
    decryptRecommendation envReject stateReg 5 (Cleartexts.num 0) 0 =
      Except.error Err.signatureCheckFailed ∧
    decryptAggregate envReject stateReg 5 (Cleartexts.num 0) 0 =
      Except.error Err.signatureCheckFailed ∧
    envAccept.sigOk 5 (Cleartexts.num 42) 0 = true :=
  ⟨((callbackProcessingOrder envReject initState 1 (Cleartexts.num 0) 0).1 rfl).1,
   ((callbackProcessingOrder envReject initState 1 (Cleartexts.num 0) 0).1 rfl).2,
   ((callbackProcessingOrder envReject stateReg 5 (Cleartexts.num 0) 0).2.1
      (by decide) rfl).1,
   ((callbackProcessingOrder envReject stateReg 5 (Cleartexts.num 0) 0).2.1
      (by decide) rfl).2,
   (callbackProcessingOrder envReject stateReg 5 (Cleartexts.num 0) 0).2.2.1 rfl,
   (callbackProcessingOrder envAccept stateAgg 5 (Cleartexts.num 42) 0).2.2.2
      (stateAgg, [Action.plainAggregateResult "water" 42]) (Or.inr (Or.inr rfl))⟩

/-- C2: when a request id has no correlator entry (entity id 0), every one of
the three decryption callbacks reverts; an error result carries no state and
no actions, so no state change and no event occur. For decryptAggregate the
rejection relies on no stored metric key hashing to 0, which holds for the
real keccak256 with overwhelming probability and is taken as a hypothesis on
the modelled hash. -/
theorem absentCorrelatorEntryRejected (env : Env) (s : State) (rid : Nat)
    (ct : Cleartexts) (pf : Nat)
    (habs : s.requestToEntityId rid = 0)
    (hkec : ∀ k ∈ s.metricKeys, env.keccak k ≠ 0) :
    (∃ e, decryptTwinUpdate env s rid ct pf = Except.error e) ∧
    (∃ e, decryptRecommendation env s rid ct pf = Except.error e) ∧
    (∃ e, decryptAggregate env s rid ct pf = Except.error e) := by
  refine ⟨⟨Err.invalidRequestId, by simp [decryptTwinUpdate, habs]⟩,
          ⟨Err.invalidRequest, by simp [decryptRecommendation, habs]⟩, ?_⟩
  cases hsig : env.sigOk rid ct pf with
  | false => exact ⟨Err.signatureCheckFailed, by simp [decryptAggregate, hsig]⟩
  | true =>
    have hfind : findMetricKeyByHash env s.metricKeys (s.requestToEntityId rid) = none := by
      rw [habs]
      unfold findMetricKeyByHash
      rw [List.find?_eq_none]
      intro k hk
      simp [hkec k hk]
    exact ⟨Err.metricKeyNotFound, by simp [decryptAggregate, hsig, hfind]⟩

/-- Witness for C2: at a concrete state with no entry for request id 1, all
three callbacks revert. -/
theorem absentCorrelatorEntryRejectedHolds :
    initState.requestToEntityId 1 = 0 ∧
    (∀ k ∈ initState.metricKeys, envAccept.keccak k ≠ 0) ∧
    ((∃ e, decryptTwinUpdate envAccept initState 1 (Cleartexts.num 0) 0 = Except.error e) ∧
     (∃ e, decryptRecommendation envAccept initState 1 (Cleartexts.num 0) 0 = Except.error e) ∧
     (∃ e, decryptAggregate envAccept initState 1 (Cleartexts.num 0) 0 = Except.error e)) :=
  ⟨rfl, by simp [initState],
   absentCorrelatorEntryRejected envAccept initState 1 (Cleartexts.num 0) 0 rfl
     (by simp [initState])⟩

/-- Six zero words are packaged for a reading id whose storage slot is the
default (absent) entry. -/
lemma packReadingCiphertexts_default (s : State) (i : Nat)
    (h : s.readings i = defaultReading) :
    packReadingCiphertexts s i = List.replicate 6 0 := by
  rw [packReadingCiphertexts, h]
  rfl

/-- Packaging only absent readings yields all-zero ciphertext words. -/
lemma mapPackDefaults (s : State) :
    ∀ ids : List Nat, (∀ i ∈ ids, s.readings i = defaultReading) →
      (ids.map (packReadingCiphertexts s)).flatten =
        List.replicate (6 * ids.length) 0 := by
  intro ids
  induction ids with
  | nil => intro _; rfl
  | cons a as ih =>
    intro h
    have ha := packReadingCiphertexts_default s a (h a (by simp))
    have hrest := ih (fun i hi => h i (by simp [hi]))
    simp only [List.map_cons, List.flatten_cons, ha, hrest, List.length_cons]
    rw [Nat.mul_succ, Nat.add_comm, List.replicate_add]

/-- C10: requestTwinUpdate performs no validation of the supplied reading
ids: for any nonempty list of ids whose storage slots are all the default
(never-submitted) entry, the call succeeds, registers the correlator entry,
and packages the six default zero ciphertext words per id into the outgoing
decryption request instead of rejecting. -/
theorem unvalidatedReadingIdsAccepted (env : Env) (s : State)
    (twinId reqId : Nat) (readingIds : List Nat)
    (hne : readingIds ≠ [])
    (hdef : ∀ i ∈ readingIds, s.readings i = defaultReading) :
    requestTwinUpdate env s twinId readingIds reqId =
      Except.ok
        ({ s with
            requestToEntityId := mapSet s.requestToEntityId reqId twinId
            requestToTag := mapSet s.requestToTag reqId (env.keccak "twin_update") },
          [Action.decryptionRequested (List.replicate (6 * readingIds.length) 0)
             Selector.twinUpdateSel,
           Action.twinUpdateRequested twinId reqId]) := by
  cases readingIds with
  | nil => exact absurd rfl hne
  | cons a as =>
    have hpack := mapPackDefaults s (a :: as) hdef
    simp only [requestTwinUpdate, List.length_cons, gt_iff_lt, Nat.succ_pos, if_true, hpack]

/-- Witness for C10: reading id 99 was never submitted in the initial state,
yet a twin-update request for it succeeds and packages six zero words. -/
theorem unvalidatedReadingIdsAcceptedHolds :
    ([99] : List Nat) ≠ [] ∧
    (∀ i ∈ ([99] : List Nat), initState.readings i = defaultReading) ∧
    requestTwinUpdate envAccept initState 7 [99] 5 =
      Except.ok
        ({ initState with
            requestToEntityId := mapSet initState.requestToEntityId 5 7
            requestToTag := mapSet initState.requestToTag 5 (envAccept.keccak "twin_update") },
          [Action.decryptionRequested (List.replicate (6 * 1) 0) Selector.twinUpdateSel,
           Action.twinUpdateRequested 7 5]) :=
  ⟨by simp, by intro i _; rfl,
   unvalidatedReadingIdsAccepted envAccept initState 7 5 [99] (by simp)
     (by intro i _; rfl)⟩

/-- Witness for C9: a concrete successful aggregate decryption returns the
pre-state and one event. -/
theorem decryptAggregateStorageUnchangedHolds :
    decryptAggregate envAccept stateAgg 5 (Cleartexts.num 42) 0 =
      Except.ok (stateAgg, [Action.plainAggregateResult "water" 42]) ∧
    (stateAgg = stateAgg ∧
      ∃ key value,
        [Action.plainAggregateResult "water" 42] = [Action.plainAggregateResult key value]) :=
  ⟨rfl, decryptAggregateStorageUnchanged envAccept stateAgg 5 (Cleartexts.num 42) 0
    stateAgg [Action.plainAggregateResult "water" 42] rfl⟩

/-- C6: when the decoded string array is shorter than the schema (twin:
{summary, healthScore}; recommendation: {watering, nutrients, lightAdjust}),
the callback still succeeds and fills the missing trailing fields with the
defaults: empty string for strings, zero for the health score. -/
theorem shortPayloadDecodesWithDefaults (env : Env) (s : State) (rid pf : Nat) :
    (∀ parts : List String, s.requestToEntityId rid ≠ 0 →
      env.sigOk rid (Cleartexts.strs parts) pf = true → parts.length ≤ 1 →
      ∃ s1 acts,
        decryptTwinUpdate env s rid (Cleartexts.strs parts) pf = Except.ok (s1, acts) ∧
        s1.decryptedTwins (s.requestToEntityId rid) = ⟨parts.getD 0 "", 0, true⟩) ∧
    (∀ items : List String, s.requestToEntityId rid ≠ 0 →
      env.sigOk rid (Cleartexts.strs items) pf = true → items.length ≤ 2 →
      ∃ s1 acts,
        decryptRecommendation env s rid (Cleartexts.strs items) pf = Except.ok (s1, acts) ∧
        s1.decryptedRecommendations (s.requestToEntityId rid) =
          ⟨items.getD 0 "", items.getD 1 "", "", true⟩) := by
  constructor
  · intro parts h0 hsig hlen
    have hpar : parseHealth parts = some 0 := by
      unfold parseHealth
      rw [if_neg (by omega)]
    obtain ⟨s1, heq, hfield, -, -⟩ :=
      decryptTwinUpdate_run env s rid (Cleartexts.strs parts) pf parts 0 h0 hsig rfl hpar
    exact ⟨s1, _, heq, hfield⟩
  · intro items h0 hsig hlen
    have h2 : items.getD 2 "" = "" := List.getD_eq_default _ _ hlen
    have heq := decryptRecommendation_run env s rid (Cleartexts.strs items) pf items h0 hsig rfl
    refine ⟨_, _, heq, ?_⟩
    simp only [mapSet_same]
    rw [h2]

/-- Witness for C6: a one-element twin payload and a two-element
recommendation payload succeed with defaulted trailing fields. -/
theorem shortPayloadDecodesWithDefaultsHolds :
    stateReg.requestToEntityId 5 ≠ 0 ∧
    (∃ s1 acts,
      decryptTwinUpdate envAccept stateReg 5 (Cleartexts.strs ["a"]) 0 = Except.ok (s1, acts) ∧
      s1.decryptedTwins (stateReg.requestToEntityId 5) = ⟨["a"].getD 0 "", 0, true⟩) ∧
    (∃ s1 acts,
      decryptRecommendation envAccept stateReg 5 (Cleartexts.strs ["w", "n"]) 0 =
        Except.ok (s1, acts) ∧
      s1.decryptedRecommendations (stateReg.requestToEntityId 5) =
        ⟨["w", "n"].getD 0 "", ["w", "n"].getD 1 "", "", true⟩) :=
  ⟨by decide,
   (shortPayloadDecodesWithDefaults envAccept stateReg 5 0).1 ["a"]
     (by decide) rfl (by decide),
   (shortPayloadDecodesWithDefaults envAccept stateReg 5 0).2 ["w", "n"]
     (by decide) rfl (by decide)⟩

/-- C8: with a registered twin-update request and a valid proof, decrypting
the payload ["Healthy,85% moisture", "85"] writes
decryptedTwins[twinId] = {stateSummary: "Healthy,85% moisture",
healthScore: 85, revealed: true}; parseUint32 maps "85" to 85. -/
theorem twinDecryptScenario (env : Env) (s : State) (rid twinId pf : Nat)
    (hreg : s.requestToEntityId rid = twinId) (h0 : twinId ≠ 0)
    (hsig : env.sigOk rid (Cleartexts.strs ["Healthy,85% moisture", "85"]) pf = true) :
    parseUint32 "85" = some 85 ∧
    ∃ s1 acts,
      decryptTwinUpdate env s rid (Cleartexts.strs ["Healthy,85% moisture", "85"]) pf =
        Except.ok (s1, acts) ∧
      s1.decryptedTwins twinId = ⟨"Healthy,85% moisture", 85, true⟩ := by
  subst hreg
  have hp : parseUint32 "85" = some 85 := by decide
  have hpar : parseHealth ["Healthy,85% moisture", "85"] = some 85 := by decide
  refine ⟨hp, ?_⟩
  obtain ⟨s1, heq, hfield, -, -⟩ :=
    decryptTwinUpdate_run env s rid
      (Cleartexts.strs ["Healthy,85% moisture", "85"]) pf
      ["Healthy,85% moisture", "85"] 85 h0 hsig rfl hpar
  exact ⟨s1, _, heq, hfield⟩

/-- Witness for C8: the scenario run at a concrete registered state. -/
theorem twinDecryptScenarioHolds :
    stateReg.requestToEntityId 5 = 7 ∧
    (parseUint32 "85" = some 85 ∧
      ∃ s1 acts,
        decryptTwinUpdate envAccept stateReg 5
            (Cleartexts.strs ["Healthy,85% moisture", "85"]) 0 = Except.ok (s1, acts) ∧
        s1.decryptedTwins 7 = ⟨"Healthy,85% moisture", 85, true⟩) :=
  ⟨rfl, twinDecryptScenario envAccept stateReg 5 7 0 rfl (by decide) rfl⟩

/-- C4: correlator entries are never removed: a successful twin-update or
recommendation callback leaves requestToEntityId and requestToTag exactly as
they were, and re-invoking the same callback with the same request id and the
same (valid) proof succeeds again instead of being rejected as consumed. -/
theorem correlatorEntriesNeverRemoved (env : Env) (s : State) (rid : Nat)
    (ct : Cleartexts) (pf : Nat) (s1 : State) (acts : List Action) :
    (decryptTwinUpdate env s rid ct pf = Except.ok (s1, acts) →
      s1.requestToEntityId = s.requestToEntityId ∧
      s1.requestToTag = s.requestToTag ∧
      ∃ out, decryptTwinUpdate env s1 rid ct pf = Except.ok out) ∧
    (decryptRecommendation env s rid ct pf = Except.ok (s1, acts) →
      s1.requestToEntityId = s.requestToEntityId ∧
      s1.requestToTag = s.requestToTag ∧
      ∃ out, decryptRecommendation env s1 rid ct pf = Except.ok out) := by
  constructor
  · intro h
    by_cases h0 : s.requestToEntityId rid = 0
    · simp [decryptTwinUpdate, h0] at h
    cases hsig : env.sigOk rid ct pf with
    | false => simp [decryptTwinUpdate, h0, hsig] at h
    | true =>
      cases hdec : decodeStringArray ct with
      | none => simp [decryptTwinUpdate, h0, hsig, hdec] at h
      | some parts =>
        cases hpar : parseHealth parts with
        | none => simp [decryptTwinUpdate, h0, hsig, hdec, hpar] at h
        | some hsc =>
          obtain ⟨s1x, heq, -, hent, htag⟩ :=
            decryptTwinUpdate_run env s rid ct pf parts hsc h0 hsig hdec hpar
          rw [heq] at h
          simp only [Except.ok.injEq, Prod.mk.injEq] at h
          obtain ⟨hs1, -⟩ := h
          subst hs1
          refine ⟨hent, htag, ?_⟩
          have h0x : s1x.requestToEntityId rid ≠ 0 := by rw [hent]; exact h0
          obtain ⟨s2x, heq2, -, -, -⟩ :=
            decryptTwinUpdate_run env s1x rid ct pf parts hsc h0x hsig hdec hpar
          exact ⟨_, heq2⟩
  · intro h
    by_cases h0 : s.requestToEntityId rid = 0
    · simp [decryptRecommendation, h0] at h
    cases hsig : env.sigOk rid ct pf with
    | false => simp [decryptRecommendation, h0, hsig] at h
    | true =>
      cases hdec : decodeStringArray ct with
      | none => simp [decryptRecommendation, h0, hsig, hdec] at h
      | some items =>
        have heq := decryptRecommendation_run env s rid ct pf items h0 hsig hdec
        rw [heq] at h
        simp only [Except.ok.injEq, Prod.mk.injEq] at h
        obtain ⟨hs1, -⟩ := h
        subst hs1
        refine ⟨rfl, rfl, ?_⟩
        exact ⟨_, decryptRecommendation_run env
          { s with
              decryptedRecommendations := mapSet s.decryptedRecommendations
                (s.requestToEntityId rid)
                ⟨items.getD 0 "", items.getD 1 "", items.getD 2 "", true⟩ }
          rid ct pf items h0 hsig hdec⟩

/-- Witness for C4: a concrete successful callback preserves the correlator
entry and can be replayed. -/
theorem correlatorEntriesNeverRemovedHolds :
    decryptTwinUpdate envAccept stateReg 5 (Cleartexts.strs ["a"]) 0 =
      Except.ok (stateAfterTwin, [Action.twinDecrypted 7]) ∧
    (stateAfterTwin.requestToEntityId = stateReg.requestToEntityId ∧
      stateAfterTwin.requestToTag = stateReg.requestToTag ∧
      ∃ out, decryptTwinUpdate envAccept stateAfterTwin 5 (Cleartexts.strs ["a"]) 0 =
        Except.ok out) :=
  ⟨rfl,
   (correlatorEntriesNeverRemoved envAccept stateReg 5 (Cleartexts.strs ["a"]) 0
      stateAfterTwin [Action.twinDecrypted 7]).1 rfl⟩

/-- One addEncryptedAggregate call preserves the aggregate invariant, puts
its key in the key list, and never removes keys. -/
lemma addEncryptedAggregate_inv (s : State) (key : String) (d : Euint32)
    (h : AggInv s) :
    AggInv (addEncryptedAggregate s key d) ∧
    key ∈ (addEncryptedAggregate s key d).metricKeys ∧
    ∀ k, k ∈ s.metricKeys → k ∈ (addEncryptedAggregate s key d).metricKeys := by
  obtain ⟨hnd, hmem⟩ := h
  by_cases hini : FHE.isInitialized (s.encryptedMetricAggregates key) = true
  · have hkeys : (addEncryptedAggregate s key d).metricKeys = s.metricKeys := by
      simp [addEncryptedAggregate, hini]
    have hagg : ∀ k, (addEncryptedAggregate s key d).encryptedMetricAggregates k =
        mapSet s.encryptedMetricAggregates key
          (FHE.add (s.encryptedMetricAggregates key) d) k := by
      intro k
      simp [addEncryptedAggregate, hini]
    refine ⟨⟨hkeys ▸ hnd, ?_⟩, hkeys ▸ (hmem key).mpr hini, fun k hk => hkeys ▸ hk⟩
    intro k
    rw [hkeys, hagg k]
    by_cases hk : k = key
    · subst hk
      simp only [mapSet_same]
      constructor
      · intro _; simp [FHE.isInitialized, FHE.add]
      · intro _; exact (hmem k).mpr hini
    · rw [mapSet_other _ _ _ _ hk]
      exact hmem k
  · have hnotmem : key ∉ s.metricKeys := fun hkmem => hini ((hmem key).mp hkmem)
    have hkeys : (addEncryptedAggregate s key d).metricKeys = s.metricKeys ++ [key] := by
      simp [addEncryptedAggregate, hini]
    have hagg : ∀ k, (addEncryptedAggregate s key d).encryptedMetricAggregates k =
        mapSet (mapSet s.encryptedMetricAggregates key (FHE.asEuint32 0)) key
          (FHE.add (mapSet s.encryptedMetricAggregates key (FHE.asEuint32 0) key) d) k := by
      intro k
      simp [addEncryptedAggregate, hini]
    refine ⟨⟨?_, ?_⟩, ?_, ?_⟩
    · rw [hkeys]
      exact List.nodup_append.mpr ⟨hnd, List.nodup_singleton key, by
        simp [List.Disjoint]
        intro a ha hak
        exact hnotmem (hak ▸ ha)⟩
    · intro k
      rw [hkeys, hagg k]
      by_cases hk : k = key
      · subst hk
        simp only [mapSet_same]
        constructor
        · intro _; simp [FHE.isInitialized, FHE.add]
        · intro _; simp
      · rw [mapSet_other _ _ _ _ hk, mapSet_other _ _ _ _ hk]
        simp only [List.mem_append, List.mem_singleton]
        constructor
        · intro hin
          rcases hin with hin | hin
          · exact (hmem k).mp hin
          · exact absurd hin hk
        · intro hin
          exact Or.inl ((hmem k).mpr hin)
    · rw [hkeys]; simp
    · intro k hk
      rw [hkeys]; exact List.mem_append_left _ hk

/-- A sequence of addEncryptedAggregate calls preserves the invariant, and
every key that was ever added (or was already present) is in the key list. -/
lemma applyAddCalls_inv (calls : List (String × Euint32)) :
    ∀ s : State, AggInv s →
      AggInv (applyAddCalls s calls) ∧
      ∀ key, ((∃ d, (key, d) ∈ calls) ∨ key ∈ s.metricKeys) →
        key ∈ (applyAddCalls s calls).metricKeys := by
  induction calls with
  | nil =>
    intro s h
    refine ⟨h, ?_⟩
    intro key hk
    rcases hk with ⟨d, hd⟩ | hk
    · simp at hd
    · exact hk
  | cons c cs ih =>
    intro s h
    have hstep : applyAddCalls s (c :: cs) =
        applyAddCalls (addEncryptedAggregate s c.1 c.2) cs := by
      simp [applyAddCalls]
    obtain ⟨hinv1, hkeymem, hmono⟩ := addEncryptedAggregate_inv s c.1 c.2 h
    obtain ⟨hinv2, hmem2⟩ := ih (addEncryptedAggregate s c.1 c.2) hinv1
    rw [hstep]
    refine ⟨hinv2, ?_⟩
    intro key hk
    apply hmem2
    rcases hk with ⟨d, hd⟩ | hk
    · rcases List.mem_cons.mp hd with heq | htail
      · right
        have hk1 : key = c.1 := congrArg Prod.fst heq
        exact hk1 ▸ hkeymem
      · exact Or.inl ⟨d, htail⟩
    · exact Or.inr (hmono key hk)

/-- The invariant holds at deployment. -/
lemma aggInv_initState : AggInv initState := by
  constructor
  · exact List.nodup_nil
  · intro k
    simp [initState, FHE.isInitialized, Euint32.uninit]

/-- C5: over any sequence of addEncryptedAggregate calls from deployment, the
metricKeys list contains a key at most once, exactly once if the key was ever
added; and when a key is not yet initialized, the call initializes the
accumulator to the encrypted zero before homomorphically adding the delta, so
the resulting accumulator is enc(0) + delta. -/
theorem metricKeysUniqueAndInitBeforeAdd (calls : List (String × Euint32)) (key : String) :
    (applyAddCalls initState calls).metricKeys.count key ≤ 1 ∧
    ((∃ d, (key, d) ∈ calls) →
      (applyAddCalls initState calls).metricKeys.count key = 1) ∧
    ∀ (s : State) (d : Euint32),
      FHE.isInitialized (s.encryptedMetricAggregates key) = false →
      (addEncryptedAggregate s key d).encryptedMetricAggregates key =
        FHE.add (FHE.asEuint32 0) d := by
  obtain ⟨⟨hnd, -⟩, hmem⟩ := applyAddCalls_inv calls initState aggInv_initState
  refine ⟨List.nodup_iff_count_le_one.mp hnd key, ?_, ?_⟩
  · intro hex
    exact List.count_eq_one_of_mem hnd (hmem key (Or.inl hex))
  · intro s d hini
    have hini' : ¬ FHE.isInitialized (s.encryptedMetricAggregates key) = true := by
      simp [hini]
    simp [addEncryptedAggregate, hini', mapSet_same]

/-- Witness for C5: two adds of "water" and one of "light" from deployment
leave exactly one "water" entry, and a fresh key's accumulator is
enc(0) + delta. -/
theorem metricKeysUniqueAndInitBeforeAddHolds :
    (applyAddCalls initState
        [("water", FHE.asEuint32 2), ("light", FHE.asEuint32 5),
         ("water", FHE.asEuint32 3)]).metricKeys.count "water" ≤ 1 ∧
    ((∃ d, ("water", d) ∈
        [("water", FHE.asEuint32 2), ("light", FHE.asEuint32 5),
         ("water", FHE.asEuint32 3)]) →
      (applyAddCalls initState
          [("water", FHE.asEuint32 2), ("light", FHE.asEuint32 5),
           ("water", FHE.asEuint32 3)]).metricKeys.count "water" = 1) ∧
    (initState.encryptedMetricAggregates "water" = Euint32.uninit ∧
      (addEncryptedAggregate initState "water"
          (FHE.asEuint32 9)).encryptedMetricAggregates "water" =
        FHE.add (FHE.asEuint32 0) (FHE.asEuint32 9)) := by
  have h := metricKeysUniqueAndInitBeforeAdd
    [("water", FHE.asEuint32 2), ("light", FHE.asEuint32 5),
     ("water", FHE.asEuint32 3)] "water"
  exact ⟨h.1, h.2.1,
    rfl, h.2.2 initState (FHE.asEuint32 9) rfl⟩

end UrbanFarmTwinFHE
